import Mathlib

/-!
Shallow embedding of the camera-capture core of the whatsapp-bot repository
(backend/functions/camera.py and backend/functions/allcameras.py), together
with theorems settling the specification claims about it.

Bytes are modelled as `Nat`, byte buffers as `List Nat`, Python strings as
Lean `String`.  Stateful and effectful code (the MJPEG incremental parser,
the RTSP subprocess lifecycle, the semaphore-bounded fan-out) is embedded as
explicit state passing / step relations; network and process outcomes that
the code merely reacts to are passed in as oracle inputs.
-/

namespace WBot

/-! ### Constants (camera.py lines 21-32) -/

def MIN_IMAGE_SIZE_BYTES : Nat := 100

def VALID_IMAGE_SIZE_BYTES : Nat := 1000

def MAX_MJPEG_BUFFER_BYTES : Nat := 5 * 1024 * 1024

/-- allcameras.py line 17. -/
def MAX_CONCURRENT_CAPTURES : Nat := 3

/-- A byte, as a natural number (the code never depends on the 0..255 range). -/
abbrev Byte := Nat

/-- A byte buffer (Python `bytes` / `bytearray`). -/
abbrev Buffer := List Byte

/-! ### Image validator (camera.py lines 550-566, `CameraFunction._is_valid_image`) -/

/-- Embedding of `CameraFunction._is_valid_image`: `data[:2] == b'\xff\xd8'`
(JPEG) or `data[:8] == b'\x89PNG\r\n\x1a\n'` (PNG), after the length guard
`len(data) < 10 -> False`.  Python slicing `data[:n]` is `List.take n`. -/
def isValidImage (data : Buffer) : Bool :=
  if data.length < 10 then
    false
  else
    (data.take 2 == [0xff, 0xd8]) ||
    (data.take 8 == [0x89, 0x50, 0x4e, 0x47, 0x0d, 0x0a, 0x1a, 0x0a])

/-! ### Byte-pattern search (Python `bytes.find`) -/

/-- `listStartsWith l p` holds when `p` is a prefix of `l` (used to model
Python substring matching). -/
def listStartsWith : Buffer → Buffer → Bool
  | _, [] => true
  | [], _ :: _ => false
  | a :: as, b :: bs => a == b && listStartsWith as bs

/-- Embedding of Python `hay.find(pat)`: index of the first occurrence of
`pat` in `hay`, `none` standing for Python's `-1`. -/
def findSub : Buffer → Buffer → Option Nat
  | [], pat => if pat.isEmpty then some 0 else none
  | a :: t, pat =>
    if listStartsWith (a :: t) pat then some 0
    else (findSub t pat).map (fun n => n + 1)

/-! ### MJPEG multipart parser (camera.py lines 459-495, inside
`CameraFunction._capture_mjpeg_snapshot`) -/

/-- The JPEG start marker `b'\xff\xd8'` (camera.py line 465). -/
def jpegStartMarker : Buffer := [0xff, 0xd8]

/-- The JPEG end marker `b'\xff\xd9'` (camera.py line 472). -/
def jpegEndMarker : Buffer := [0xff, 0xd9]

/-- Parser state of the multipart loop: `collecting` is the
`collecting_image` flag, `buf` the `image_buffer` bytearray. -/
structure MjpegState where
  collecting : Bool
  buf : Buffer
deriving DecidableEq, Repr

/-- Result of processing one chunk: either a complete accepted frame is
returned from the function, or the loop continues with a new state. -/
inductive MjpegOut where
  | frame (img : Buffer)
  | next (s : MjpegState)
deriving DecidableEq, Repr

/-- The acceptance gate of camera.py lines 477-479: the candidate frame is
returned only if `_is_valid_image` accepts it and it is strictly larger
than `VALID_IMAGE_SIZE_BYTES`. -/
def acceptFrame (img : Buffer) : Bool :=
  isValidImage img && decide (VALID_IMAGE_SIZE_BYTES < img.length)

/-- One iteration of the `async for chunk in response.aiter_bytes()` loop of
camera.py lines 463-495.  In the searching state (`collecting_image` false)
the chunk is scanned for the start marker; on a hit the buffer is reseeded
with `chunk[jpeg_start:]`.  In the accumulating state the chunk is appended,
the whole buffer is scanned from its start for the first end marker, the
candidate `image_buffer[:jpeg_end + 2]` is gated by `acceptFrame`, and
finally the 5 MiB overflow guard of lines 490-495 discards the buffer and
returns to searching. -/
def mjpegStep (s : MjpegState) (chunk : Buffer) : MjpegOut :=
  if s.collecting = false then
    match findSub chunk jpegStartMarker with
    | some i => .next ⟨true, chunk.drop i⟩
    | none => .next s
  else
    let buf := s.buf ++ chunk
    match findSub buf jpegEndMarker with
    | some j =>
      let candidate := buf.take (j + 2)
      if acceptFrame candidate then .frame candidate
      else if MAX_MJPEG_BUFFER_BYTES < buf.length then .next ⟨false, []⟩
      else .next ⟨true, buf⟩
    | none =>
      if MAX_MJPEG_BUFFER_BYTES < buf.length then .next ⟨false, []⟩
      else .next ⟨true, buf⟩

/-- The whole multipart loop over a finite list of chunks: the first accepted
frame is returned, exhaustion of the stream yields `none` (the function then
falls through and returns `None`). -/
def mjpegRun (s : MjpegState) : List Buffer → Option Buffer
  | [] => none
  | c :: cs =>
    match mjpegStep s c with
    | .frame img => some img
    | .next t => mjpegRun t cs

/-! ### RTSP capturer (camera.py lines 246-331,
`CameraFunction._capture_rtsp_snapshot`) -/

/-- Outcome of the attempt to run the ffmpeg process, as observed by the
code: `asyncio.create_subprocess_exec` (camera.py line 287) itself raises
(e.g. `FileNotFoundError` when ffmpeg is absent), or the spawned process's
`communicate()` returns within `FFMPEG_TIMEOUT_SECONDS` (with a return code
and whatever bytes the process left in the temporary file), or
`asyncio.wait_for` raises `asyncio.TimeoutError`. -/
inductive RtspOutcome where
  | spawnFailed (msg : String)
  | completed (returncode : Int) (fileData : Buffer)
  | timedOut
deriving DecidableEq, Repr

/-- Externally visible resource effects of one `_capture_rtsp_snapshot`
call: whether `communicate()` returned (so the process has exited), whether
`process.kill()` was called, and whether `os.unlink(temp_path)` ran. -/
structure RtspEffects where
  processExited : Bool
  processKilled : Bool
  tempFileDeleted : Bool
deriving DecidableEq, Repr

/-- Embedding of the body of `_capture_rtsp_snapshot` from the point where
the temporary file has been created (camera.py lines 259-331), as a function
of the process outcome.  If `create_subprocess_exec` (line 287) raises, the
exception propagates to the outer `except Exception` (line 328): the inner
`try`/`finally` of lines 293-326 is never entered, so no process exists, the
`os.unlink(temp_path)` of the `finally` block never runs (the temporary file
created with `delete=False` at lines 259-262 leaks), and the function
returns `None` (line 331).  Otherwise, on `returncode == 0` the temporary
file is read and the payload is returned only when
`len(image_data) > MIN_IMAGE_SIZE_BYTES` (line 303); a non-zero return code
only logs; a timeout calls `process.kill()` (line 319); the `finally` block
(lines 322-326) unlinks the temporary file on each of these three paths;
every failing path falls through to `return None` (line 331).  Base64
encoding of the returned payload is omitted (it is a bijection on
buffers). -/
def captureRtspSnapshot (o : RtspOutcome) : Option Buffer × RtspEffects :=
  match o with
  | .spawnFailed _ =>
    (none,
     { processExited := false, processKilled := false, tempFileDeleted := false })
  | .completed returncode fileData =>
    if returncode = 0 then
      if MIN_IMAGE_SIZE_BYTES < fileData.length then
        (some fileData,
         { processExited := true, processKilled := false, tempFileDeleted := true })
      else
        (none,
         { processExited := true, processKilled := false, tempFileDeleted := true })
    else
      (none,
       { processExited := true, processKilled := false, tempFileDeleted := true })
  | .timedOut =>
    (none,
     { processExited := false, processKilled := true, tempFileDeleted := true })

/-! ### Camera discovery (camera.py lines 87-137,
`CameraFunction._discover_cameras`) -/

/-- One camera configuration dict, with the keys used by
`_discover_cameras`. -/
structure CameraConfig where
  IP : String
  PORT : String
  USERNAME : String
  PASSWORD : String
  TYPE : String
  PATH : String
deriving DecidableEq, Repr

/-- Defaults of camera.py lines 21-25 and 117-124. -/
def defaultConfig : CameraConfig :=
  { IP := "", PORT := "554", USERNAME := "admin", PASSWORD := ""
    TYPE := "rtsp", PATH := "" }

/-- The environment, as the ordered key/value pairs of `os.environ`. -/
abbrev Env := List (String × String)

/-- Python `os.getenv(key)`: first binding of `key`, if any. -/
def getenv (env : Env) (key : String) : Option String :=
  match env.find? (fun kv => kv.1 == key) with
  | some kv => some kv.2
  | none => none

/-- Python `os.getenv(key, default)`. -/
def getenvD (env : Env) (key dflt : String) : String :=
  (getenv env key).getD dflt

/-- The discovered-camera dict: an insertion-ordered association list. -/
abbrev CameraMap := List (String × CameraConfig)

/-- Python `name in cameras`. -/
def camContains (cams : CameraMap) (name : String) : Bool :=
  cams.any (fun kv => kv.1 == name)

/-- In-place update of the binding of `name` (Python dict item assignment on
an existing key keeps its position). -/
def camUpdate (cams : CameraMap) (name : String) (f : CameraConfig → CameraConfig) :
    CameraMap :=
  cams.map (fun kv => if kv.1 == name then (kv.1, f kv.2) else kv)

/-- Python `s.lower()` (ASCII; character-wise lower-casing). -/
def strLower (s : String) : String := String.mk (s.toList.map Char.toLower)

/-- Python `s.upper()` (ASCII; character-wise upper-casing). -/
def strUpper (s : String) : String := String.mk (s.toList.map Char.toUpper)

/-- Python `key[7:]` on the character level, `7 = len("CAMERA_")`. -/
def keyRest (key : String) : List Char := key.toList.drop 7

/-- Decidable equality of char lists as a Bool. -/
def listCharEq (a b : List Char) : Bool := a == b

/-- Python `key.startswith("CAMERA_")` (camera.py line 110). -/
def startsWithCAMERA (key : String) : Bool :=
  listCharEq (key.toList.take 7) ("CAMERA_".toList)

/-- Python `rest.split('_', 1)` restricted to the case where `'_'` occurs in
`rest`: the part before the first underscore and the part after it. -/
def splitFirstUnderscore : List Char → (List Char × List Char)
  | [] => ([], [])
  | c :: cs =>
    if c = '_' then ([], cs)
    else
      let p := splitFirstUnderscore cs
      (c :: p.1, p.2)

/-- Body of the `for key, value in os.environ.items()` loop of camera.py
lines 109-130, acting on the accumulated camera dict.  A key matching
`CAMERA_<NAME>_<FIELD>` first materialises a default profile for the
lower-cased name if absent (appended, preserving dict insertion order), then
assigns the field: `IP/PORT/USERNAME/PASSWORD/PATH` verbatim, `TYPE`
lower-cased, anything else ignored. -/
def discoverStep (cams : CameraMap) (kv : String × String) : CameraMap :=
  let key := kv.1
  let value := kv.2
  if startsWithCAMERA key && (keyRest key).contains '_' then
    let parts := splitFirstUnderscore (keyRest key)
    let cameraName := strLower (String.mk parts.1)
    let configKey := strUpper (String.mk parts.2)
    let cams :=
      if camContains cams cameraName then cams
      else cams ++ [(cameraName, defaultConfig)]
    if configKey = "IP" then
      camUpdate cams cameraName (fun c => { c with IP := value })
    else if configKey = "PORT" then
      camUpdate cams cameraName (fun c => { c with PORT := value })
    else if configKey = "USERNAME" then
      camUpdate cams cameraName (fun c => { c with USERNAME := value })
    else if configKey = "PASSWORD" then
      camUpdate cams cameraName (fun c => { c with PASSWORD := value })
    else if configKey = "PATH" then
      camUpdate cams cameraName (fun c => { c with PATH := value })
    else if configKey = "TYPE" then
      camUpdate cams cameraName (fun c => { c with TYPE := strLower value })
    else
      cams
  else
    cams

/-- Embedding of `CameraFunction._discover_cameras` (camera.py lines
87-137): the legacy `CAMERA_IP` single-camera profile (lines 99-107, guarded
by Python truthiness of `os.getenv('CAMERA_IP')`, i.e. present and
non-empty), then the named-key loop, then the final filter (lines 132-135)
keeping only profiles whose `IP` is truthy (non-empty). -/
def discoverCameras (env : Env) : CameraMap :=
  let cams : CameraMap :=
    match getenv env "CAMERA_IP" with
    | some ip =>
      if ip ≠ "" then
        [("default",
          { IP := ip
            PORT := getenvD env "CAMERA_PORT" "554"
            USERNAME := getenvD env "CAMERA_USERNAME" "admin"
            PASSWORD := getenvD env "CAMERA_PASSWORD" ""
            TYPE := strLower (getenvD env "CAMERA_TYPE" "rtsp")
            PATH := getenvD env "CAMERA_PATH" "" })]
      else []
    | none => []
  let cams := env.foldl discoverStep cams
  cams.filter (fun kv => kv.2.IP ≠ "")

/-! ### Fan-out orchestrator (allcameras.py lines 59-207,
`AllCamerasFunction.execute` and `_capture_single_camera`) -/

/-- The dict returned by `_capture_single_camera` (allcameras.py lines
183-207): a `success` flag plus the metadata fields the aggregation loop and
the response text read. -/
structure SingleResult where
  success : Bool
  camera_name : String
  camera_type : String
  camera_ip : String
  image_data : Buffer
  error : String
deriving DecidableEq, Repr

/-- One element of the `asyncio.gather(..., return_exceptions=True)` result
list: either an exception instance (carrying its `str(...)`) or the result
dict of `_capture_single_camera`. -/
inductive CamOutcome where
  | exc (msg : String)
  | res (r : SingleResult)
deriving DecidableEq, Repr

/-- The partition loop of allcameras.py lines 93-112, over the per-camera
name/outcome pairs in camera iteration order: exceptions and dicts without a
truthy `success` go to `failed_captures` (paired with the loop's
`camera_names[i]` and the respective error text), successful dicts go to
`successful_captures` unchanged. -/
def partitionResults : List (String × CamOutcome) →
    List SingleResult × List (String × String)
  | [] => ([], [])
  | (name, o) :: rest =>
    let p := partitionResults rest
    match o with
    | .exc msg => (p.1, (name, msg) :: p.2)
    | .res r =>
      if r.success then (r :: p.1, p.2)
      else (p.1, (name, "Unknown capture failure") :: p.2)

/-- The aggregate data dict passed to `format_success_response`
(allcameras.py lines 149-156), minus the ISO timestamp string which is
carried separately. -/
structure AggregateData where
  total_cameras : Nat
  successful_captures : List SingleResult
  failed_captures : List (String × String)
  success_count : Nat
  failed_count : Nat
deriving DecidableEq, Repr

/-- The response dict shape produced by `FunctionBase.format_error_response`
and `format_success_response` (base.py lines 234-267), specialised to the
all-cameras result payload. -/
structure ExecResponse where
  success : Bool
  error : Option String
  result : Option AggregateData
  response : String
deriving DecidableEq, Repr

/-- Embedding of `FunctionBase.format_error_response` (base.py lines
234-247). -/
def formatErrorResponse (msg : String) : ExecResponse :=
  { success := false, error := some msg, result := none
    response := "Sorry, I encountered an error: " ++ msg }

/-- Embedding of `FunctionBase.format_success_response` (base.py lines
249-267). -/
def formatSuccessResponse (data : AggregateData) (msg : String) : ExecResponse :=
  { success := true, error := none, result := some data, response := msg }

/-- The per-capture line of allcameras.py line 137. -/
def capturedCameraLine (r : SingleResult) : String :=
  "• " ++ r.camera_name ++ " (" ++ strUpper r.camera_type ++ ")\n"

/-- The per-failure line of allcameras.py line 142. -/
def failedCameraLine (f : String × String) : String :=
  "• " ++ f.1 ++ "\n"

/-- The response text assembled by allcameras.py lines 125-146, with the
formatted completion timestamp passed in as `ts`. -/
def buildResponseText (successCount failedCount totalCameras : Nat)
    (succ : List SingleResult) (fail : List (String × String))
    (ts : String) : String :=
  let base :=
    "📸 **Multiple Camera Capture**\n\n" ++
    "✅ Successful: " ++ toString successCount ++ "\n" ++
    "❌ Failed: " ++ toString failedCount ++ "\n" ++
    "📱 Total: " ++ toString totalCameras ++ "\n\n"
  let base :=
    if succ.isEmpty then base
    else base ++ "**Captured cameras:**\n" ++ String.join (succ.map capturedCameraLine)
  let base :=
    if fail.isEmpty then base
    else base ++ "\n**Failed cameras:**\n" ++ String.join (fail.map failedCameraLine)
  base ++ "\n🕐 Completed: " ++ ts

/-- Embedding of `AllCamerasFunction.execute` (allcameras.py lines 59-158).
The input is the camera map in iteration order, each name paired with the
oracle outcome its gathered capture task produced; `ts` is the formatted
completion timestamp.  Empty camera map: immediate configuration error
(lines 69-72).  Zero successes: overall error citing the total camera count
(lines 118-122).  Otherwise: success response carrying the aggregate data
and counts (lines 148-158). -/
def allCamerasExecute (ts : String) (cameras : List (String × CamOutcome)) :
    ExecResponse :=
  if cameras.isEmpty then
    formatErrorResponse "No cameras configured in the system"
  else
    let p := partitionResults cameras
    let totalCameras := cameras.length
    let successCount := p.1.length
    let failedCount := p.2.length
    if successCount = 0 then
      formatErrorResponse
        ("Could not capture image from any of the " ++
          toString totalCameras ++ " cameras")
    else
      formatSuccessResponse
        { total_cameras := totalCameras
          successful_captures := p.1
          failed_captures := p.2
          success_count := successCount
          failed_count := failedCount }
        (buildResponseText successCount failedCount totalCameras p.1 p.2 ts)

/-! ### Bounded-concurrency step relation (allcameras.py lines 81-88)

The fan-out launches one task per camera; each task body is
`async with semaphore: ... await self._capture_single_camera(...)` with
`semaphore = asyncio.Semaphore(MAX_CONCURRENT_CAPTURES)`.  The asyncio
interleaving is embedded as a step relation on the list of task phases: a
waiting task may acquire the semaphore only while fewer than
`MAX_CONCURRENT_CAPTURES` tasks hold it; an active task may finish at any
time with any outcome (success, failure dict, or raised exception),
releasing the semaphore and never affecting any other task's phase. -/

/-- Phase of one capture task. -/
inductive TaskPhase where
  | waiting
  | active
  | done (o : CamOutcome)
deriving DecidableEq, Repr

/-- Whether a task currently holds the semaphore. -/
def isActive : TaskPhase → Bool
  | .active => true
  | _ => false

/-- Whether a task has completed. -/
def isDone : TaskPhase → Bool
  | .done _ => true
  | _ => false

/-- Whether a task still has work to do (progress measure). -/
def notDone (ph : TaskPhase) : Bool := !(isDone ph)

/-- Number of tasks concurrently inside the `async with semaphore` block. -/
def activeCount (ts : List TaskPhase) : Nat :=
  ts.countP isActive

/-- One asyncio scheduling step of the fan-out. -/
inductive FanoutStep : List TaskPhase → List TaskPhase → Prop where
  | start (ts : List TaskPhase) (i : Nat) (h : i < ts.length)
      (hw : ts.get ⟨i, h⟩ = .waiting)
      (hs : activeCount ts < MAX_CONCURRENT_CAPTURES) :
      FanoutStep ts (ts.set i .active)
  | finish (ts : List TaskPhase) (i : Nat) (h : i < ts.length)
      (ha : ts.get ⟨i, h⟩ = .active) (o : CamOutcome) :
      FanoutStep ts (ts.set i (.done o))

/-- Initial state: one waiting task per camera (allcameras.py line 87). -/
def fanoutInit (n : Nat) : List TaskPhase := List.replicate n .waiting

/-- Reachability under the fan-out step relation. -/
def FanoutReachable (n : Nat) (s : List TaskPhase) : Prop :=
  Relation.ReflTransGen FanoutStep (fanoutInit n) s

/-- Spec-side description of the success entries: the result dicts of the
successful captures, in camera iteration order. -/
def successEntry (p : String × CamOutcome) : Option SingleResult :=
  match p.2 with
  | .res r => if r.success then some r else none
  | .exc _ => none

/-- Spec-side description of the failure entries: camera name plus error
text, in camera iteration order. -/
def failureEntry (p : String × CamOutcome) : Option (String × String) :=
  match p.2 with
  | .exc m => some (p.1, m)
  | .res r => if r.success then none else some (p.1, "Unknown capture failure")

/-- Sample successful capture dict, used by concrete witnesses. -/
def okRes : SingleResult :=
  { success := true, camera_name := "cam1", camera_type := "rtsp"
    camera_ip := "10.0.0.5", image_data := [0xff, 0xd8], error := "" }

/-- Sample failed capture dict, used by concrete witnesses. -/
def badRes : SingleResult :=
  { success := false, camera_name := "cam3", camera_type := "http"
    camera_ip := "10.0.0.7", image_data := [], error := "nope" }

/-! ## Theorems -/

/-- C5: for every byte buffer, `isValidImage` returns true if and only if
the buffer's length is at least 10 and its leading bytes are FF D8 (JPEG) or
89 50 4E 47 0D 0A 1A 0A (PNG); in particular every buffer shorter than 10
bytes is invalid and every buffer of length at least 10 starting with FF D8
is valid. -/
theorem isValidImage_iff_magic (data : Buffer) :
    isValidImage data = true ↔
      10 ≤ data.length ∧
        (data.take 2 = [0xff, 0xd8] ∨
         data.take 8 = [0x89, 0x50, 0x4e, 0x47, 0x0d, 0x0a, 0x1a, 0x0a]) := by
  unfold isValidImage
  split
  next h =>
    simp only [Bool.false_eq_true, false_iff, not_and]
    intro h10
    omega
  next h =>
    rw [Bool.or_eq_true, beq_iff_eq, beq_iff_eq]
    constructor
    · intro hor
      exact ⟨by omega, hor⟩
    · intro hp
      exact hp.2

/-- C3, counterexample: the cleanup does not hold on every possible exit of
the operation — on the exit path where spawning the decode process itself
raises (camera.py line 287, caught by the outer handler at line 328), the
inner `finally` never runs, the temporary file is not deleted, and the
capture returns no payload. -/
theorem rtsp_spawn_failure_leaks_tempfile :
    (captureRtspSnapshot (.spawnFailed "ffmpeg not found")).2.tempFileDeleted
        = false ∧
      (captureRtspSnapshot (.spawnFailed "ffmpeg not found")).1 = none :=
  ⟨rfl, rfl⟩

/-- C3, amended: on the three process-outcome exit paths — successful exit,
exit with a non-zero return code, and timeout — the temporary file is
unlinked and the process has either exited (its `communicate()` returned) or
been killed; but the cleanup is not unconditional over every possible exit:
when spawning the process itself raises, the exception is caught at the
function's outer boundary and the temporary file is not deleted (it
leaks). -/
theorem rtsp_cleanup_on_process_outcomes :
    (∀ (returncode : Int) (fileData : Buffer),
      (captureRtspSnapshot (.completed returncode fileData)).2.tempFileDeleted
          = true ∧
        (captureRtspSnapshot (.completed returncode fileData)).2.processExited
          = true) ∧
      ((captureRtspSnapshot .timedOut).2.tempFileDeleted = true ∧
        (captureRtspSnapshot .timedOut).2.processKilled = true) ∧
      (∀ msg : String,
        (captureRtspSnapshot (.spawnFailed msg)).2.tempFileDeleted = false) := by
  refine ⟨?_, ⟨rfl, rfl⟩, fun msg => rfl⟩
  intro returncode fileData
  by_cases h : returncode = 0
  · by_cases h2 : MIN_IMAGE_SIZE_BYTES < fileData.length <;>
      simp [captureRtspSnapshot, h, h2]
  · simp [captureRtspSnapshot, h]

/-- C4, counterexample: a payload of exactly 100 bytes read from the
temporary file after a successful (`returncode == 0`) decode is rejected,
although the claim states that every payload of at least 100 bytes is
returned as a successful capture. -/
theorem rtsp_100_byte_payload_fails :
    100 ≤ (List.replicate 100 (0 : Byte)).length ∧
      (captureRtspSnapshot (.completed 0 (List.replicate 100 0))).1 = none := by
  constructor
  · simp
  · simp [captureRtspSnapshot, MIN_IMAGE_SIZE_BYTES]

/-- C4, amended: when the decode process exits successfully within the
timeout, the payload read from the temporary file is returned as a
successful capture exactly when it is strictly larger than
`MIN_IMAGE_SIZE_BYTES` (100) bytes, and treated as a failure exactly when it
is at most 100 bytes. -/
theorem rtsp_payload_threshold (data : Buffer) :
    ((captureRtspSnapshot (.completed 0 data)).1 = some data ↔
        MIN_IMAGE_SIZE_BYTES < data.length) ∧
      ((captureRtspSnapshot (.completed 0 data)).1 = none ↔
        data.length ≤ MIN_IMAGE_SIZE_BYTES) := by
  by_cases h : MIN_IMAGE_SIZE_BYTES < data.length <;>
    simp [captureRtspSnapshot, h]
  all_goals omega

/-! ### Orchestrator lemmas -/

theorem partitionResults_eq_filterMap (cs : List (String × CamOutcome)) :
    partitionResults cs = (cs.filterMap successEntry, cs.filterMap failureEntry) := by
  induction cs with
  | nil => rfl
  | cons c rest ih =>
    obtain ⟨name, o⟩ := c
    cases o with
    | exc m => simp [partitionResults, successEntry, failureEntry, ih]
    | res r =>
      by_cases hr : r.success <;>
        simp [partitionResults, successEntry, failureEntry, hr, ih]

theorem partitionResults_length (cs : List (String × CamOutcome)) :
    (partitionResults cs).1.length + (partitionResults cs).2.length = cs.length := by
  induction cs with
  | nil => rfl
  | cons c rest ih =>
    obtain ⟨name, o⟩ := c
    cases o with
    | exc m =>
      simp only [partitionResults, List.length_cons]
      omega
    | res r =>
      by_cases hr : r.success
      · simp [partitionResults, hr]
        omega
      · simp [partitionResults, hr]
        omega

theorem partitionResults_names_perm (cs : List (String × CamOutcome))
    (hname : ∀ p ∈ cs, ∀ r, p.2 = CamOutcome.res r → r.camera_name = p.1) :
    List.Perm
      ((partitionResults cs).1.map SingleResult.camera_name ++
        (partitionResults cs).2.map Prod.fst)
      (cs.map Prod.fst) := by
  induction cs with
  | nil => simp [partitionResults]
  | cons c rest ih =>
    obtain ⟨name, o⟩ := c
    have hrest : ∀ p ∈ rest, ∀ r, p.2 = CamOutcome.res r → r.camera_name = p.1 :=
      fun p hp => hname p (List.mem_cons_of_mem _ hp)
    have ihr := ih hrest
    cases o with
    | exc m =>
      simp only [partitionResults, List.map_cons, List.map, Prod.fst]
      exact List.perm_middle.trans (ihr.cons name)
    | res r =>
      by_cases hr : r.success
      · have hn : r.camera_name = name :=
          hname (name, CamOutcome.res r) (List.mem_cons_self _ _) r rfl
        simp only [partitionResults, hr, if_true, List.map_cons, List.cons_append,
          List.map, Prod.fst, hn]
        exact ihr.cons name
      · simp only [partitionResults, hr, if_false, List.map_cons, List.map, Prod.fst]
        exact List.perm_middle.trans (ihr.cons name)

/-- When `execute` returns an aggregate result dict, the camera map was
non-empty, at least one capture succeeded, and the dict is exactly the one
assembled from the partition of the outcomes. -/
theorem allCamerasExecute_result_char (ts : String)
    (cameras : List (String × CamOutcome)) (d : AggregateData)
    (hd : (allCamerasExecute ts cameras).result = some d) :
    cameras ≠ [] ∧ (partitionResults cameras).1.length ≠ 0 ∧
      d = { total_cameras := cameras.length
            successful_captures := (partitionResults cameras).1
            failed_captures := (partitionResults cameras).2
            success_count := (partitionResults cameras).1.length
            failed_count := (partitionResults cameras).2.length } := by
  by_cases hne : cameras = []
  · subst hne
    simp [allCamerasExecute, formatErrorResponse] at hd
  · have hie : cameras.isEmpty = false := by
      cases cameras with
      | nil => exact absurd rfl hne
      | cons a t => rfl
    by_cases hs : (partitionResults cameras).1.length = 0
    · simp [allCamerasExecute, hie, hs, formatErrorResponse] at hd
    · refine ⟨hne, hs, ?_⟩
      simp [allCamerasExecute, hie, hs, formatSuccessResponse] at hd
      exact hd.symm

/-- C6: `captureAll` with no discovered cameras returns the configuration
error "No cameras configured in the system" with `success = false`, and an
aggregate result dict, whenever one is produced, always has a positive
`total_cameras` — so a report with zero total cameras is never returned. -/
theorem allcameras_empty_is_config_error (ts : String) :
    allCamerasExecute ts [] =
        formatErrorResponse "No cameras configured in the system" ∧
      (allCamerasExecute ts []).success = false ∧
      (∀ (cameras : List (String × CamOutcome)) (d : AggregateData),
        (allCamerasExecute ts cameras).result = some d → 0 < d.total_cameras) := by
  refine ⟨rfl, rfl, ?_⟩
  intro cameras d hd
  obtain ⟨hne, hs, hdd⟩ := allCamerasExecute_result_char ts cameras d hd
  subst hdd
  cases cameras with
  | nil => exact absurd rfl hne
  | cons a t => simp

theorem allcameras_empty_is_config_error_witness :
    allCamerasExecute "t" [] =
        formatErrorResponse "No cameras configured in the system" ∧
      0 < ({ total_cameras := 1, successful_captures := [okRes]
             failed_captures := [], success_count := 1
             failed_count := 0 } : AggregateData).total_cameras := by
  have h := allcameras_empty_is_config_error "t"
  exact ⟨h.1, h.2.2 [("cam1", .res okRes)] _ rfl⟩

/-- C1: for a non-empty camera map, the overall operation is reported failed
(`success = false`), with an error citing the total camera count, exactly
when zero captures succeeded; with at least one success it is an overall
success whose report carries the success and failure counts. -/
theorem allcameras_overall_success_iff (ts : String)
    (cameras : List (String × CamOutcome)) (hne : cameras ≠ []) :
    ((allCamerasExecute ts cameras).success = false ↔
        (partitionResults cameras).1.length = 0) ∧
      ((partitionResults cameras).1.length = 0 →
        (allCamerasExecute ts cameras).error =
          some ("Could not capture image from any of the " ++
            toString cameras.length ++ " cameras")) ∧
      (0 < (partitionResults cameras).1.length →
        (allCamerasExecute ts cameras).success = true ∧
          (allCamerasExecute ts cameras).result =
            some { total_cameras := cameras.length
                   successful_captures := (partitionResults cameras).1
                   failed_captures := (partitionResults cameras).2
                   success_count := (partitionResults cameras).1.length
                   failed_count := (partitionResults cameras).2.length }) := by
  have hie : cameras.isEmpty = false := by
    cases cameras with
    | nil => exact absurd rfl hne
    | cons a t => rfl
  by_cases hs : (partitionResults cameras).1.length = 0
  · refine ⟨?_, ?_, ?_⟩
    · simp [allCamerasExecute, hie, hs, formatErrorResponse]
    · intro _
      simp [allCamerasExecute, hie, hs, formatErrorResponse]
    · intro h0
      omega
  · refine ⟨?_, ?_, ?_⟩
    · simp [allCamerasExecute, hie, hs, formatSuccessResponse]
    · intro h0
      exact absurd h0 hs
    · intro _
      simp [allCamerasExecute, hie, hs, formatSuccessResponse]

theorem allcameras_overall_success_iff_witness :
    (allCamerasExecute "t"
        [("cam1", CamOutcome.res okRes), ("cam2", CamOutcome.exc "boom")]).success
        = true ∧
      (allCamerasExecute "t"
        [("cam1", CamOutcome.res okRes), ("cam2", CamOutcome.exc "boom")]).result =
        some { total_cameras := 2
               successful_captures := [okRes]
               failed_captures := [("cam2", "boom")]
               success_count := 1
               failed_count := 1 } := by
  have h := (allcameras_overall_success_iff "t"
      [("cam1", CamOutcome.res okRes), ("cam2", CamOutcome.exc "boom")]
      (List.cons_ne_nil _ _)).2.2 (by decide)
  exact ⟨h.1, h.2⟩

/-- C9: the aggregate report lists successes and failures each in the
camera iteration order of the input map (the order-preserving partition of
the outcome list), the success and failure counts add up to
`total_cameras`, and the two lists together contain each configured camera
exactly once (their names are a permutation of the input names). -/
theorem allcameras_report_ordered_partition (ts : String)
    (cameras : List (String × CamOutcome)) (d : AggregateData)
    (hname : ∀ p ∈ cameras, ∀ r, p.2 = CamOutcome.res r → r.camera_name = p.1)
    (hd : (allCamerasExecute ts cameras).result = some d) :
    d.successful_captures = cameras.filterMap successEntry ∧
      d.failed_captures = cameras.filterMap failureEntry ∧
      d.success_count + d.failed_count = d.total_cameras ∧
      List.Perm
        (d.successful_captures.map SingleResult.camera_name ++
          d.failed_captures.map Prod.fst)
        (cameras.map Prod.fst) := by
  obtain ⟨hne, hs, hdd⟩ := allCamerasExecute_result_char ts cameras d hd
  subst hdd
  refine ⟨?_, ?_, ?_, ?_⟩
  · simp [partitionResults_eq_filterMap]
  · simp [partitionResults_eq_filterMap]
  · exact partitionResults_length cameras
  · exact partitionResults_names_perm cameras hname

theorem allcameras_report_ordered_partition_witness :
    ([okRes] : List SingleResult) =
        ([("cam1", CamOutcome.res okRes), ("cam2", CamOutcome.exc "boom"),
          ("cam3", CamOutcome.res badRes)].filterMap successEntry) ∧
      ([("cam2", "boom"), ("cam3", "Unknown capture failure")] :
          List (String × String)) =
        ([("cam1", CamOutcome.res okRes), ("cam2", CamOutcome.exc "boom"),
          ("cam3", CamOutcome.res badRes)].filterMap failureEntry) ∧
      1 + 2 = 3 ∧
      List.Perm
        (([okRes].map SingleResult.camera_name) ++
          ([("cam2", "boom"), ("cam3", "Unknown capture failure")].map Prod.fst))
        ["cam1", "cam2", "cam3"] := by
  have h := allcameras_report_ordered_partition "t"
      [("cam1", CamOutcome.res okRes), ("cam2", CamOutcome.exc "boom"),
        ("cam3", CamOutcome.res badRes)]
      { total_cameras := 3, successful_captures := [okRes]
        failed_captures := [("cam2", "boom"), ("cam3", "Unknown capture failure")]
        success_count := 1, failed_count := 2 }
      (by
        intro p hp r hr
        simp only [List.mem_cons, List.not_mem_nil, or_false] at hp
        rcases hp with rfl | rfl | rfl
        · injection hr with h2
          subst h2
          rfl
        · exact absurd hr (by simp)
        · injection hr with h2
          subst h2
          rfl)
      rfl
  exact h

/-- C8: for every configuration map, every camera profile retained by
discovery has a non-empty host (`IP`) field — profiles whose host was never
set to a non-empty string are excluded by the final filter. -/
theorem discoverCameras_host_nonempty (env : Env) (name : String)
    (c : CameraConfig) (h : (name, c) ∈ discoverCameras env) : c.IP ≠ "" := by
  simp only [discoverCameras] at h
  have h2 := List.mem_filter.mp h
  simpa using h2.2

theorem discoverCameras_host_nonempty_witness :
    ({ IP := "10.0.0.5", PORT := "554", USERNAME := "admin", PASSWORD := ""
       TYPE := "mjpeg", PATH := "" } : CameraConfig).IP ≠ "" :=
  discoverCameras_host_nonempty
    [("CAMERA_KITCHEN_IP", "10.0.0.5"), ("CAMERA_KITCHEN_TYPE", "MJPEG")]
    "kitchen" _ (by decide)

/-! ### MJPEG parser lemmas -/

theorem listStartsWith_length_le (l p : Buffer)
    (h : listStartsWith l p = true) : p.length ≤ l.length := by
  induction p generalizing l with
  | nil => simp
  | cons b bs ih =>
    cases l with
    | nil => simp [listStartsWith] at h
    | cons a t =>
      simp only [listStartsWith, Bool.and_eq_true] at h
      have := ih t h.2
      simp only [List.length_cons]
      omega

theorem listStartsWith_append (l p e : Buffer)
    (h : listStartsWith l p = true) : listStartsWith (l ++ e) p = true := by
  induction p generalizing l with
  | nil => simp [listStartsWith]
  | cons b bs ih =>
    cases l with
    | nil => simp [listStartsWith] at h
    | cons a t =>
      simp only [listStartsWith, Bool.and_eq_true] at h
      simp only [List.cons_append, listStartsWith, Bool.and_eq_true]
      exact ⟨h.1, ih t h.2⟩

theorem findSub_some_le (hay : Buffer) (p q : Byte) :
    ∀ j, findSub hay [p, q] = some j → j + 2 ≤ hay.length := by
  induction hay with
  | nil =>
    intro j h
    simp [findSub] at h
  | cons a t ih =>
    intro j h
    by_cases hsw : listStartsWith (a :: t) [p, q] = true
    · rw [findSub, if_pos hsw] at h
      obtain rfl : j = 0 := by simpa using h.symm
      simpa using listStartsWith_length_le _ _ hsw
    · rw [findSub, if_neg hsw] at h
      simp only [Option.map_eq_some'] at h
      obtain ⟨j0, hj0, rfl⟩ := h
      have := ih j0 hj0
      simp only [List.length_cons]
      omega

theorem findSub_append_of_some (hay e : Buffer) (p q : Byte) :
    ∀ j, findSub hay [p, q] = some j → findSub (hay ++ e) [p, q] = some j := by
  induction hay with
  | nil =>
    intro j h
    simp [findSub] at h
  | cons a t ih =>
    intro j h
    by_cases hsw : listStartsWith (a :: t) [p, q] = true
    · rw [findSub, if_pos hsw] at h
      rw [List.cons_append, findSub,
        if_pos (by simpa using listStartsWith_append (a :: t) [p, q] e hsw)]
      exact h
    · rw [findSub, if_neg hsw] at h
      simp only [Option.map_eq_some'] at h
      obtain ⟨j0, hj0, rfl⟩ := h
      cases t with
      | nil => simp [findSub] at hj0
      | cons b t2 =>
        have hsw2 : ¬ listStartsWith ((a :: b :: t2) ++ e) [p, q] = true := by
          simpa [listStartsWith] using hsw
        rw [List.cons_append, findSub, if_neg (by simpa using hsw2)]
        rw [ih j0 hj0]
        rfl

theorem findSub_replicate_zero_none (n : Nat) :
    findSub (List.replicate n 0) [0xff, 0xd9] = none := by
  induction n with
  | zero => rfl
  | succ n ih =>
    rw [List.replicate_succ]
    simp [findSub, listStartsWith, ih]

/-- C2: in the multipart mode, whenever after appending a chunk the
accumulation buffer exceeds 5 MiB (5*1024*1024 bytes) without containing the
JPEG end marker FF D9, the parser discards the entire buffer and returns to
the searching state; moreover every continuation state produced from an
accumulating state carries a buffer of at most 5 MiB, so the retained buffer
never grows unboundedly on an end-marker-free stream. -/
theorem mjpeg_overflow_discards :
    (∀ (s : MjpegState) (chunk : Buffer),
      s.collecting = true →
      findSub (s.buf ++ chunk) jpegEndMarker = none →
      MAX_MJPEG_BUFFER_BYTES < (s.buf ++ chunk).length →
      mjpegStep s chunk = .next ⟨false, []⟩) ∧
    (∀ (s t : MjpegState) (chunk : Buffer),
      s.collecting = true →
      mjpegStep s chunk = .next t →
      t.buf.length ≤ MAX_MJPEG_BUFFER_BYTES) := by
  constructor
  · intro s chunk hc hnone hlen
    simp only [List.length_append] at hlen
    simp [mjpegStep, hc, hnone, hlen]
  · intro s t chunk hc hstep
    cases hfs : findSub (s.buf ++ chunk) jpegEndMarker with
    | none =>
      by_cases hlen : MAX_MJPEG_BUFFER_BYTES < s.buf.length + chunk.length
      · have he : mjpegStep s chunk = .next ⟨false, []⟩ := by
          simp [mjpegStep, hc, hfs, hlen]
        rw [he] at hstep
        obtain rfl : ({ collecting := false, buf := [] } : MjpegState) = t := by
          simpa using hstep
        simp
      · have he : mjpegStep s chunk = .next ⟨true, s.buf ++ chunk⟩ := by
          simp [mjpegStep, hc, hfs, hlen]
        rw [he] at hstep
        obtain rfl : ({ collecting := true, buf := s.buf ++ chunk } : MjpegState) = t := by
          simpa using hstep
        simp only [List.length_append]
        omega
    | some j =>
      by_cases hacc : acceptFrame ((s.buf ++ chunk).take (j + 2)) = true
      · have he : mjpegStep s chunk = .frame ((s.buf ++ chunk).take (j + 2)) := by
          simp [mjpegStep, hc, hfs, hacc]
        rw [he] at hstep
        simp at hstep
      · by_cases hlen : MAX_MJPEG_BUFFER_BYTES < s.buf.length + chunk.length
        · have he : mjpegStep s chunk = .next ⟨false, []⟩ := by
            simp [mjpegStep, hc, hfs, hacc, hlen]
          rw [he] at hstep
          obtain rfl : ({ collecting := false, buf := [] } : MjpegState) = t := by
            simpa using hstep
          simp
        · have he : mjpegStep s chunk = .next ⟨true, s.buf ++ chunk⟩ := by
            simp [mjpegStep, hc, hfs, hacc, hlen]
          rw [he] at hstep
          obtain rfl : ({ collecting := true, buf := s.buf ++ chunk } : MjpegState) = t := by
            simpa using hstep
          simp only [List.length_append]
          omega

theorem mjpeg_overflow_discards_witness :
    mjpegStep ⟨true, List.replicate MAX_MJPEG_BUFFER_BYTES 0⟩ [0] =
      .next ⟨false, []⟩ := by
  apply mjpeg_overflow_discards.1
  · rfl
  · rw [← List.replicate_succ']
    exact findSub_replicate_zero_none (MAX_MJPEG_BUFFER_BYTES + 1)
  · have h1 : (List.replicate MAX_MJPEG_BUFFER_BYTES (0 : Byte) ++ [0]).length =
        MAX_MJPEG_BUFFER_BYTES + 1 := by
      rw [List.length_append, List.length_replicate, List.length_cons,
        List.length_nil]
    rw [h1]
    exact Nat.lt_succ_self MAX_MJPEG_BUFFER_BYTES

/-- From an accumulating state whose buffer already holds a first end marker
at index `j` with a rejected candidate, one more chunk keeps the first end
marker at `j` and the candidate unchanged (the scan always restarts from the
start of the buffer), unless the overflow guard discards the buffer. -/
theorem mjpegStep_rejected (s : MjpegState) (j : Nat) (chunk : Buffer)
    (hc : s.collecting = true)
    (hj : findSub s.buf jpegEndMarker = some j)
    (hrej : acceptFrame (s.buf.take (j + 2)) = false) :
    (MAX_MJPEG_BUFFER_BYTES < (s.buf ++ chunk).length →
      mjpegStep s chunk = .next ⟨false, []⟩) ∧
    ((s.buf ++ chunk).length ≤ MAX_MJPEG_BUFFER_BYTES →
      mjpegStep s chunk = .next ⟨true, s.buf ++ chunk⟩) ∧
    findSub (s.buf ++ chunk) jpegEndMarker = some j ∧
    (s.buf ++ chunk).take (j + 2) = s.buf.take (j + 2) := by
  have hj' : findSub s.buf [0xff, 0xd9] = some j := hj
  have hj2 : findSub (s.buf ++ chunk) jpegEndMarker = some j :=
    findSub_append_of_some s.buf chunk 0xff 0xd9 j hj'
  have hle : j + 2 ≤ s.buf.length := findSub_some_le s.buf 0xff 0xd9 j hj'
  have htake : (s.buf ++ chunk).take (j + 2) = s.buf.take (j + 2) :=
    List.take_append_of_le_length hle
  refine ⟨?_, ?_, hj2, htake⟩
  · intro hlen
    simp only [List.length_append] at hlen
    simp [mjpegStep, hc, hj2, htake, hrej, hlen]
  · intro hlen
    have hlen2 : ¬ MAX_MJPEG_BUFFER_BYTES < s.buf.length + chunk.length := by
      simp only [List.length_append] at hlen
      omega
    simp [mjpegStep, hc, hj2, htake, hrej, hlen2]

theorem mjpegRun_rejected_none (cs : List Buffer) :
    ∀ (s : MjpegState) (j : Nat),
      s.collecting = true →
      findSub s.buf jpegEndMarker = some j →
      acceptFrame (s.buf.take (j + 2)) = false →
      (s.buf ++ cs.flatten).length ≤ MAX_MJPEG_BUFFER_BYTES →
      mjpegRun s cs = none := by
  induction cs with
  | nil =>
    intro s j _ _ _ _
    rfl
  | cons c rest ih =>
    intro s j hc hj hrej hbound
    have hb1 : (s.buf ++ c).length ≤ MAX_MJPEG_BUFFER_BYTES := by
      simp only [List.flatten_cons, List.length_append] at hbound ⊢
      omega
    obtain ⟨hover, hkeep, hj2, htake⟩ := mjpegStep_rejected s j c hc hj hrej
    have hstep := hkeep hb1
    have hrest := ih ⟨true, s.buf ++ c⟩ j rfl hj2
      (by
        show acceptFrame ((s.buf ++ c).take (j + 2)) = false
        rw [htake]
        exact hrej)
      (by
        show ((s.buf ++ c) ++ rest.flatten).length ≤ MAX_MJPEG_BUFFER_BYTES
        simp only [List.flatten_cons, List.length_append] at hbound ⊢
        omega)
    simp [mjpegRun, hstep, hrest]

/-- C10: in the multipart mode the end-marker scan always searches the whole
accumulation buffer from its start; once the candidate frame delimited by
the first FF D9 has been rejected by the acceptance gate, appending any
further chunk leaves the first end-marker index and hence the rejected
candidate unchanged, no step can produce a frame, and as long as the buffer
stays within the 5 MiB bound (so the discard-and-return-to-searching guard
never fires) the whole remaining stream yields no frame. -/
theorem mjpeg_rejected_candidate_stalls (s : MjpegState) (j : Nat)
    (hc : s.collecting = true)
    (hj : findSub s.buf jpegEndMarker = some j)
    (hrej : acceptFrame (s.buf.take (j + 2)) = false) :
    (∀ chunk : Buffer,
      findSub (s.buf ++ chunk) jpegEndMarker = some j ∧
      (s.buf ++ chunk).take (j + 2) = s.buf.take (j + 2) ∧
      (∀ img : Buffer, mjpegStep s chunk ≠ .frame img) ∧
      (MAX_MJPEG_BUFFER_BYTES < (s.buf ++ chunk).length →
        mjpegStep s chunk = .next ⟨false, []⟩) ∧
      ((s.buf ++ chunk).length ≤ MAX_MJPEG_BUFFER_BYTES →
        mjpegStep s chunk = .next ⟨true, s.buf ++ chunk⟩)) ∧
    (∀ cs : List Buffer,
      (s.buf ++ cs.flatten).length ≤ MAX_MJPEG_BUFFER_BYTES →
      mjpegRun s cs = none) := by
  constructor
  · intro chunk
    obtain ⟨hover, hkeep, hj2, htake⟩ := mjpegStep_rejected s j chunk hc hj hrej
    refine ⟨hj2, htake, ?_, hover, hkeep⟩
    intro img hframe
    by_cases hlen : MAX_MJPEG_BUFFER_BYTES < (s.buf ++ chunk).length
    · rw [hover hlen] at hframe
      simp at hframe
    · rw [hkeep (by omega)] at hframe
      simp at hframe
  · intro cs hb
    exact mjpegRun_rejected_none cs s j hc hj hrej hb

theorem mjpeg_rejected_candidate_stalls_witness :
    mjpegRun ⟨true, [0xff, 0xd8, 0xff, 0xd9]⟩ [[0], [0]] = none :=
  (mjpeg_rejected_candidate_stalls ⟨true, [0xff, 0xd8, 0xff, 0xd9]⟩ 2 rfl
      (by decide) (by decide)).2 [[0], [0]] (by decide)

/-! ### Fan-out concurrency lemmas -/

theorem countP_set_balance {α : Type} (p : α → Bool) :
    ∀ (l : List α) (i : Nat) (h : i < l.length) (b : α),
      (l.set i b).countP p + (if p (l.get ⟨i, h⟩) then 1 else 0)
        = l.countP p + (if p b then 1 else 0) := by
  intro l
  induction l with
  | nil =>
    intro i h b
    simp at h
  | cons a t ih =>
    intro i h b
    cases i with
    | zero =>
      simp only [List.set, List.get, List.countP_cons]
      omega
    | succ i2 =>
      have ht : i2 < t.length := by simpa using h
      have hih := ih i2 ht b
      simp only [List.set, List.get, List.countP_cons]
      omega

theorem fanout_active_le (n : Nat) :
    ∀ s, FanoutReachable n s → activeCount s ≤ MAX_CONCURRENT_CAPTURES := by
  intro s h
  unfold FanoutReachable at h
  induction h with
  | refl =>
    have hz : (fanoutInit n).countP isActive = 0 := by
      rw [List.countP_eq_zero]
      intro a ha
      rw [List.eq_of_mem_replicate ha]
      simp [isActive]
    unfold activeCount
    rw [hz]
    exact Nat.zero_le _
  | tail hsteps hstep ih =>
    cases hstep with
    | start i h hw hs =>
      have hc := countP_set_balance isActive _ i h TaskPhase.active
      rw [hw, show isActive TaskPhase.waiting = false from rfl,
        show isActive TaskPhase.active = true from rfl] at hc
      simp only [Bool.false_eq_true, if_false, if_true] at hc
      unfold activeCount MAX_CONCURRENT_CAPTURES at *
      omega
    | finish i h ha o =>
      have hc := countP_set_balance isActive _ i h (TaskPhase.done o)
      rw [ha, show isActive TaskPhase.active = true from rfl,
        show isActive (TaskPhase.done o) = false from rfl] at hc
      simp only [Bool.false_eq_true, if_false, if_true] at hc
      unfold activeCount at *
      omega

theorem fanout_progress_aux :
    ∀ (k : Nat) (s : List TaskPhase),
      s.countP notDone ≤ k →
      ∃ t, Relation.ReflTransGen FanoutStep s t ∧ ∀ ph ∈ t, isDone ph = true := by
  intro k
  induction k with
  | zero =>
    intro s h0
    refine ⟨s, .refl, ?_⟩
    intro ph hph
    have h2 := List.countP_eq_zero.mp (Nat.le_zero.mp h0) ph hph
    cases hd : isDone ph
    · exact absurd (by simp [notDone, hd]) h2
    · rfl
  | succ k ih =>
    intro s hk
    by_cases hall : ∀ ph ∈ s, isDone ph = true
    · exact ⟨s, .refl, hall⟩
    · push_neg at hall
      obtain ⟨ph, hmem, hnd⟩ := hall
      obtain ⟨m, hget⟩ := List.mem_iff_get.mp hmem
      cases hph : ph with
      | done o =>
        rw [hph] at hnd
        simp [isDone] at hnd
      | active =>
        rw [hph] at hget
        have hbal := countP_set_balance notDone s m.1 m.2 (.done (.exc ""))
        rw [hget, show notDone TaskPhase.active = true from rfl,
          show notDone (TaskPhase.done (.exc "")) = false from rfl] at hbal
        simp only [Bool.false_eq_true, if_false, if_true] at hbal
        obtain ⟨t, htr, hdone⟩ := ih (s.set m.1 (.done (.exc ""))) (by omega)
        exact ⟨t, .head (FanoutStep.finish s m.1 m.2 hget (.exc "")) htr, hdone⟩
      | waiting =>
        rw [hph] at hget
        by_cases hact : activeCount s < MAX_CONCURRENT_CAPTURES
        · have hbal1 := countP_set_balance notDone s m.1 m.2 .active
          rw [hget, show notDone TaskPhase.waiting = true from rfl,
            show notDone TaskPhase.active = true from rfl] at hbal1
          simp only [if_true] at hbal1
          have hlen2 : m.1 < (s.set m.1 TaskPhase.active).length := by
            rw [List.length_set]
            exact m.2
          have hget2 : (s.set m.1 TaskPhase.active).get ⟨m.1, hlen2⟩ =
              TaskPhase.active := by
            simp
          have hbal2 := countP_set_balance notDone
            (s.set m.1 TaskPhase.active) m.1 hlen2 (.done (.exc ""))
          rw [hget2, show notDone TaskPhase.active = true from rfl,
            show notDone (TaskPhase.done (.exc "")) = false from rfl] at hbal2
          simp only [Bool.false_eq_true, if_false, if_true] at hbal2
          have hset2 : (s.set m.1 TaskPhase.active).set m.1 (.done (.exc "")) =
              s.set m.1 (.done (.exc "")) := List.set_set ..
          rw [hset2] at hbal2
          obtain ⟨t, htr, hdone⟩ := ih (s.set m.1 (TaskPhase.done (.exc "")))
            (by omega)
          refine ⟨t, .head (FanoutStep.start s m.1 m.2 hget hact) ?_, hdone⟩
          have hstep2 := FanoutStep.finish (s.set m.1 TaskPhase.active) m.1 hlen2
            hget2 (.exc "")
          rw [hset2] at hstep2
          exact .head hstep2 htr
        · have hpos : 0 < s.countP isActive := by
            unfold activeCount MAX_CONCURRENT_CAPTURES at hact
            omega
          obtain ⟨pha, hmema, hpa⟩ := List.countP_pos_iff.mp hpos
          have hpa2 : pha = TaskPhase.active := by
            cases pha <;> simp [isActive] at hpa ⊢
          obtain ⟨m2, hgetm⟩ := List.mem_iff_get.mp hmema
          rw [hpa2] at hgetm
          have hbal := countP_set_balance notDone s m2.1 m2.2 (.done (.exc ""))
          rw [hgetm, show notDone TaskPhase.active = true from rfl,
            show notDone (TaskPhase.done (.exc "")) = false from rfl] at hbal
          simp only [Bool.false_eq_true, if_false, if_true] at hbal
          obtain ⟨t, htr, hdone⟩ := ih (s.set m2.1 (.done (.exc ""))) (by omega)
          exact ⟨t, .head (FanoutStep.finish s m2.1 m2.2 hgetm (.exc "")) htr, hdone⟩

/-- C7: under the semaphore-bounded step relation of the fan-out, at most
`MAX_CONCURRENT_CAPTURES` (3) capture tasks are ever concurrently active in
any reachable state, regardless of the number of cameras; an active task can
always finish with any outcome, independently of every other task's phase;
and from any reachable state the system can always run every launched task
to completion. -/
theorem fanout_semaphore_bound (n : Nat) :
    (∀ s, FanoutReachable n s → activeCount s ≤ MAX_CONCURRENT_CAPTURES) ∧
      (∀ (s : List TaskPhase) (i : Nat) (h : i < s.length) (o : CamOutcome),
        s.get ⟨i, h⟩ = TaskPhase.active → FanoutStep s (s.set i (.done o))) ∧
      (∀ s, FanoutReachable n s →
        ∃ t, Relation.ReflTransGen FanoutStep s t ∧ ∀ ph ∈ t, isDone ph = true) := by
  refine ⟨fanout_active_le n, ?_, ?_⟩
  · intro s i h o ha
    exact FanoutStep.finish s i h ha o
  · intro s _
    exact fanout_progress_aux (s.countP notDone) s le_rfl

theorem fanout_semaphore_bound_witness :
    activeCount (fanoutInit 5) ≤ MAX_CONCURRENT_CAPTURES ∧
      ∃ t, Relation.ReflTransGen FanoutStep (fanoutInit 5) t ∧
        ∀ ph ∈ t, isDone ph = true :=
  ⟨(fanout_semaphore_bound 5).1 (fanoutInit 5) .refl,
   (fanout_semaphore_bound 5).2.2 (fanoutInit 5) .refl⟩

end WBot
